import Mathlib

/-!
Shallow embedding of the agent-test-harness engine
(`scripts/run_test_suite.py` and `scripts/aggregate_results.py`).

Text is modelled as `String` (with the workhorse functions on `List Char`),
Python floats as `ℚ`, Python ints as `ℤ`, and the heterogeneous JSON values
that flow through the scripts as the inductive type `Json` below.  External
effects (the `claude` subprocess, the file system, wall-clock time) are
modelled as explicit inputs.  Python code that can raise is modelled in
`Except String`.
-/

set_option autoImplicit false

namespace Harness

/-! ### Python string primitives (on `List Char`) -/

/-- Whitespace characters removed by Python `str.strip()` (ASCII part). -/
def pyWs (c : Char) : Bool :=
  c = ' ' || c = '\t' || c = '\n' || c = '\r' || c = '\x0b' || c = '\x0c'

/-- Python `str.strip()` on a character list. -/
def stripCL (cs : List Char) : List Char :=
  ((cs.dropWhile pyWs).reverse.dropWhile pyWs).reverse

/-- Python `text.split("\n")` on a character list: never returns `[]`. -/
def linesCL : List Char → List (List Char)
  | [] => [[]]
  | c :: cs =>
    if c = '\n' then [] :: linesCL cs
    else
      match linesCL cs with
      | l :: ls => (c :: l) :: ls
      | [] => [[c]]

/-- Python `"\n".join(...)` on character lists. -/
def joinNL : List (List Char) → List Char
  | [] => []
  | [l] => l
  | l :: ls => l ++ '\n' :: joinNL ls

/-- Python `str.strip()` lifted to `String`. -/
def pyStrip (s : String) : String := String.mk (stripCL s.data)

/-! ### JSON values

Model of the structured data produced by `json.loads` / consumed by
`json.dumps`.  Numbers are restricted to integers: every numeric field the
scripts inspect in the claims is integral, and the model parser simply fails
on fractional literals (a failed parse is handled identically to any other
unparseable input by the code under study).  The item and field lists are
specialised inductive types (rather than `List`) so that every recursive
function over JSON values is structurally recursive and kernel-evaluable. -/

mutual

inductive Json where
  | null
  | bool (b : Bool)
  | int (n : Int)
  | str (s : String)
  | arr (xs : JsonItems)
  | obj (kvs : JsonFields)
deriving DecidableEq

inductive JsonItems where
  | nil
  | cons (hd : Json) (tl : JsonItems)
deriving DecidableEq

inductive JsonFields where
  | nil
  | cons (k : String) (v : Json) (tl : JsonFields)
deriving DecidableEq

end

def JsonItems.toList : JsonItems → List Json
  | .nil => []
  | .cons x xs => x :: xs.toList

def JsonItems.ofList : List Json → JsonItems
  | [] => .nil
  | x :: xs => .cons x (JsonItems.ofList xs)

def JsonFields.ofList : List (String × Json) → JsonFields
  | [] => .nil
  | kv :: kvs => .cons kv.1 kv.2 (JsonFields.ofList kvs)

def JsonFields.keys : JsonFields → List String
  | .nil => []
  | .cons k _ kvs => k :: kvs.keys

/-- `Json.arr` from a `List` literal. -/
def Json.arrL (xs : List Json) : Json := .arr (JsonItems.ofList xs)

/-- `Json.obj` from a `List` literal. -/
def Json.objL (kvs : List (String × Json)) : Json := .obj (JsonFields.ofList kvs)

/-- Python truthiness (`bool(x)`) of a JSON value. -/
def pyTruthy : Json → Bool
  | Json.null => false
  | Json.bool b => b
  | Json.int n => decide (n ≠ 0)
  | Json.str s => !s.data.isEmpty
  | Json.arr .nil => false
  | Json.arr (.cons _ _) => true
  | Json.obj .nil => false
  | Json.obj (.cons _ _ _) => true

/-- First binding of key `k`, if any (lookup in a `dict` without duplicate
keys). -/
def JsonFields.find? : JsonFields → String → Option Json
  | .nil, _ => none
  | .cons k' v kvs, k => if k' = k then some v else kvs.find? k

/-- Python `dict.get(k, d)` on the fields of a JSON object. -/
def jget (kvs : JsonFields) (k : String) (d : Json) : Json :=
  match kvs.find? k with
  | some v => v
  | none => d

/-! ### `json.dumps` (compact default separators) -/

def escapeChars : List Char → List Char
  | [] => []
  | c :: cs =>
    if c = '"' then '\\' :: '"' :: escapeChars cs
    else if c = '\\' then '\\' :: '\\' :: escapeChars cs
    else if c = '\n' then '\\' :: 'n' :: escapeChars cs
    else if c = '\t' then '\\' :: 't' :: escapeChars cs
    else if c = '\r' then '\\' :: 'r' :: escapeChars cs
    else c :: escapeChars cs

mutual

/-- Python `json.dumps` with default separators.  String escaping is limited
to the characters the scripts can produce; non-ASCII escaping is not
modelled. -/
def dumpJson : Json → String
  | Json.null => "null"
  | Json.bool true => "true"
  | Json.bool false => "false"
  | Json.int n => toString n
  | Json.str s => "\"" ++ String.mk (escapeChars s.data) ++ "\""
  | Json.arr xs => "[" ++ dumpItems xs ++ "]"
  | Json.obj kvs => "\x7b" ++ dumpFields kvs ++ "\x7d"

def dumpItems : JsonItems → String
  | .nil => ""
  | .cons x .nil => dumpJson x
  | .cons x xs => dumpJson x ++ ", " ++ dumpItems xs

def dumpFields : JsonFields → String
  | .nil => ""
  | .cons k v .nil => "\"" ++ String.mk (escapeChars k.data) ++ "\": " ++ dumpJson v
  | .cons k v kvs =>
      "\"" ++ String.mk (escapeChars k.data) ++ "\": " ++ dumpJson v ++ ", " ++ dumpFields kvs

end

/-! ### `json.loads` (fuel-based recursive-descent model) -/

/-- JSON structural whitespace. -/
def jsonWs (c : Char) : Bool :=
  c = ' ' || c = '\t' || c = '\n' || c = '\r'

def skipWs : List Char → List Char
  | [] => []
  | c :: cs => if jsonWs c then skipWs cs else c :: cs

/-- Accumulate a run of decimal digits. -/
def digitsLoop : List Char → Nat → Nat × List Char
  | [], acc => (acc, [])
  | c :: cs, acc =>
    if c.isDigit then digitsLoop cs (acc * 10 + (c.toNat - 48)) else (acc, c :: cs)

def hexVal (c : Char) : Option Nat :=
  if c.isDigit then some (c.toNat - 48)
  else if 'a' ≤ c ∧ c ≤ 'f' then some (c.toNat - 87)
  else if 'A' ≤ c ∧ c ≤ 'F' then some (c.toNat - 55)
  else none

/-- Body of a JSON string literal after the opening quote; returns the
decoded characters and the remainder after the closing quote. -/
def parseStrBody : List Char → Option (List Char × List Char)
  | [] => none
  | c :: cs =>
    if c = '"' then some ([], cs)
    else if c = '\\' then
      match cs with
      | [] => none
      | e :: cs' =>
        if e = 'u' then
          match cs' with
          | a :: b :: c2 :: d :: rest =>
            match hexVal a, hexVal b, hexVal c2, hexVal d with
            | some ha, some hb, some hc, some hd =>
              match parseStrBody rest with
              | some (s, r) =>
                some (Char.ofNat (((ha * 16 + hb) * 16 + hc) * 16 + hd) :: s, r)
              | none => none
            | _, _, _, _ => none
          | _ => none
        else
          match
            (if e = '"' then some '"'
             else if e = '\\' then some '\\'
             else if e = '/' then some '/'
             else if e = 'n' then some '\n'
             else if e = 't' then some '\t'
             else if e = 'r' then some '\r'
             else if e = 'b' then some '\x08'
             else if e = 'f' then some '\x0c'
             else none) with
          | some ch =>
            match parseStrBody cs' with
            | some (s, r) => some (ch :: s, r)
            | none => none
          | none => none
    else
      match parseStrBody cs with
      | some (s, r) => some (c :: s, r)
      | none => none

mutual

def parseVal : Nat → List Char → Option (Json × List Char)
  | 0, _ => none
  | f + 1, cs =>
    match skipWs cs with
    | [] => none
    | c :: rest =>
      if c = Char.ofNat 123 then
        match skipWs rest with
        | d :: rest' =>
          if d = Char.ofNat 125 then some (Json.obj .nil, rest')
          else
            match parseMembers f (d :: rest') with
            | some (ms, r) => some (Json.objL ms, r)
            | none => none
        | [] => none
      else if c = '[' then
        match skipWs rest with
        | d :: rest' =>
          if d = ']' then some (Json.arr .nil, rest')
          else
            match parseItems f (d :: rest') with
            | some (xs, r) => some (Json.arrL xs, r)
            | none => none
        | [] => none
      else if c = '"' then
        match parseStrBody rest with
        | some (s, r) => some (Json.str (String.mk s), r)
        | none => none
      else if c = 't' then
        if rest.take 3 = ['r', 'u', 'e'] then some (Json.bool true, rest.drop 3) else none
      else if c = 'f' then
        if rest.take 4 = ['a', 'l', 's', 'e'] then some (Json.bool false, rest.drop 4) else none
      else if c = 'n' then
        if rest.take 3 = ['u', 'l', 'l'] then some (Json.null, rest.drop 3) else none
      else if c = '-' then
        match rest with
        | d :: _ =>
          if d.isDigit then
            let p := digitsLoop rest 0
            some (Json.int (-(p.1 : Int)), p.2)
          else none
        | [] => none
      else if c.isDigit then
        let p := digitsLoop (c :: rest) 0
        some (Json.int (p.1 : Int), p.2)
      else none

def parseMembers : Nat → List Char → Option (List (String × Json) × List Char)
  | 0, _ => none
  | f + 1, cs =>
    match skipWs cs with
    | c :: rest =>
      if c = '"' then
        match parseStrBody rest with
        | some (k, r1) =>
          match skipWs r1 with
          | c2 :: r2 =>
            if c2 = ':' then
              match parseVal f r2 with
              | some (v, r3) =>
                match skipWs r3 with
                | c3 :: r4 =>
                  if c3 = ',' then
                    match parseMembers f r4 with
                    | some (ms, r5) => some ((String.mk k, v) :: ms, r5)
                    | none => none
                  else if c3 = Char.ofNat 125 then some ([(String.mk k, v)], r4)
                  else none
                | [] => none
              | none => none
            else none
          | [] => none
        | none => none
      else none
    | [] => none

def parseItems : Nat → List Char → Option (List Json × List Char)
  | 0, _ => none
  | f + 1, cs =>
    match parseVal f cs with
    | some (v, r1) =>
      match skipWs r1 with
      | c :: r2 =>
        if c = ',' then
          match parseItems f r2 with
          | some (xs, r3) => some (v :: xs, r3)
          | none => none
        else if c = ']' then some ([v], r2)
        else none
      | [] => none
    | none => none

end

/-- Model of `json.loads`: parse a complete JSON document, rejecting
trailing garbage.  Fuel is generous for any input the scripts see; a
fuel-starved parse is reported as failure, which the code under study
treats the same as any other parse failure. -/
def parseJson (s : String) : Option Json :=
  match parseVal (2 * s.data.length + 8) s.data with
  | some (v, r) => if skipWs r = [] then some v else none
  | none => none

/-! ### Python numeric conversions `float(x)` / `int(x)` on JSON values -/

def natFromDigits (cs : List Char) : Nat :=
  cs.foldl (fun a c => a * 10 + (c.toNat - 48)) 0

/-- Python `float(s)` on a string (sign, digits, optional fraction; exponents
are not modelled — they never arise here). `none` means `ValueError`. -/
def pyFloatOfChars (cs0 : List Char) : Option ℚ :=
  let cs1 := stripCL cs0
  let sgn : ℚ := if cs1.head? = some '-' then -1 else 1
  let cs := if cs1.head? = some '-' || cs1.head? = some '+' then cs1.drop 1 else cs1
  let ds := cs.takeWhile Char.isDigit
  let r1 := cs.dropWhile Char.isDigit
  match r1 with
  | [] =>
    if ds.isEmpty then none else some (sgn * (natFromDigits ds : ℚ))
  | '.' :: r2 =>
    let fs := r2.takeWhile Char.isDigit
    let r3 := r2.dropWhile Char.isDigit
    if r3.isEmpty && !(ds.isEmpty && fs.isEmpty) then
      some (sgn * ((natFromDigits ds : ℚ) + (natFromDigits fs : ℚ) / (10 ^ fs.length)))
    else none
  | _ => none

/-- Python `int(s)` on a string (sign and digits only). `none` = `ValueError`. -/
def pyIntOfChars (cs0 : List Char) : Option Int :=
  let cs1 := stripCL cs0
  let sgn : Int := if cs1.head? = some '-' then -1 else 1
  let cs := if cs1.head? = some '-' || cs1.head? = some '+' then cs1.drop 1 else cs1
  if cs.isEmpty || !(cs.all Char.isDigit) then none
  else some (sgn * (natFromDigits cs : Int))

/-- Python `float(x)` on a JSON value; `Except.error` models a raised
`TypeError`/`ValueError`. -/
def pyFloatJ : Json → Except String ℚ
  | Json.int n => .ok (n : ℚ)
  | Json.bool b => .ok (if b then 1 else 0)
  | Json.str s =>
    match pyFloatOfChars s.data with
    | some q => .ok q
    | none => .error ("could not convert string to float: " ++ s)
  | _ => .error "float() argument must be a string or a real number"

/-- Python `int(x)` on a JSON value. -/
def pyIntJ : Json → Except String Int
  | Json.int n => .ok n
  | Json.bool b => .ok (if b then 1 else 0)
  | Json.str s =>
    match pyIntOfChars s.data with
    | some n => .ok n
    | none => .error ("invalid literal for int() with base 10: " ++ s)
  | _ => .error "int() argument must be a string or a number"

/-- Python `str(x)` (as interpolated by an f-string) on a JSON value.
Containers are rendered via `dumpJson`; this approximates Python `repr`
punctuation for nested strings but is never exercised by the claims. -/
def pyStr : Json → String
  | Json.null => "None"
  | Json.bool true => "True"
  | Json.bool false => "False"
  | Json.int n => toString n
  | Json.str s => s
  | v => dumpJson v

/-! ### `strip_markdown_code_fences` (identical in both scripts) -/

/-- The fence marker. -/
def btick3 : List Char := ['`', '`', '`']

/-- The `while end_idx > 0 and not lines[end_idx].strip() == "```"` search:
starting from the given index and walking downwards, the first index whose
stripped line is the closing marker (0 if none in `1..start`). -/
def findCloseFrom (ls : List (List Char)) : Nat → Nat
  | 0 => 0
  | i + 1 => if stripCL (ls.getD (i + 1) []) = btick3 then i + 1 else findCloseFrom ls i

def stripFencesCL (t : List Char) : List Char :=
  if t.isEmpty then t
  else if btick3.isPrefixOf (stripCL t) then
    if btick3.isPrefixOf ((linesCL (stripCL t)).getD 0 []) then
      if 0 < findCloseFrom (linesCL (stripCL t)) ((linesCL (stripCL t)).length - 1) then
        stripCL (joinNL (((linesCL (stripCL t)).drop 1).take
          (findCloseFrom (linesCL (stripCL t)) ((linesCL (stripCL t)).length - 1) - 1)))
      else stripCL t
    else stripCL t
  else stripCL t

def strip_markdown_code_fences (s : String) : String :=
  String.mk (stripFencesCL s.data)

/-! ### Agent Invoker: `run_claude_command`

The subprocess boundary is an explicit input: either the process completed
(with captured stdout/stderr and a return code) or the invocation raised
`TimeoutExpired` / `FileNotFoundError` / some other exception. -/

structure CmdResult where
  success : Bool
  result : Json
  session_id : Json
  cost_usd : ℚ
  num_turns : Int
  error : Option String
deriving DecidableEq

inductive InvokeOutcome where
  | completed (stdout : String) (stderr : String) (returncode : Int)
  | timedOut
  | fileNotFound
  | raised (msg : String)
deriving DecidableEq

/-- f-string rendering of the `timeout` argument. -/
def pyOptIntStr : Option Int → String
  | some t => toString t
  | none => "None"

def maxTurnsMsg (turns : Json) : String :=
  "Task did not complete within " ++ pyStr turns ++ " turns (max_turns limit reached)"

def incompleteText : String := "[Task incomplete - max turns reached]"

def subtypeOf (kvs : JsonFields) : Json := jget kvs "subtype" (Json.str "success")

def respTextOf (kvs : JsonFields) : Json := jget kvs "result" (jget kvs "message" (Json.str ""))

def sessionOf (kvs : JsonFields) : Json := jget kvs "session_id" (jget kvs "sessionId" Json.null)

def costFieldOf (kvs : JsonFields) : Json :=
  jget kvs "total_cost_usd" (jget kvs "cost_usd" (jget kvs "costUsd" (Json.int 0)))

def turnsFieldOf (kvs : JsonFields) : Json := jget kvs "num_turns" (jget kvs "numTurns" (Json.int 1))

/-- Python `float(cost) if cost else 0.0`. -/
def costConvVal (j : Json) : Except String ℚ :=
  if pyTruthy j then pyFloatJ j else .ok 0

/-- Python `int(num_turns) if num_turns else 1`. -/
def turnsConvVal (j : Json) : Except String Int :=
  if pyTruthy j then pyIntJ j else .ok 1

/-- Python `if isinstance(response_text, dict): response_text =
json.dumps(response_text)`. -/
def respNormed (kvs : JsonFields) : Json :=
  match respTextOf kvs with
  | Json.obj o => Json.str (dumpJson (Json.obj o))
  | v => v

/-- The `error_max_turns` / non-zero-exit handling: the pair of the error
message and the (possibly placeholder-substituted) response text. -/
def errAndText (kvs : JsonFields) (rc : Int) (stderr : String) : Option String × Json :=
  if subtypeOf kvs = Json.str "error_max_turns" then
    (some (maxTurnsMsg (turnsFieldOf kvs)),
     if pyTruthy (respNormed kvs) then respNormed kvs else Json.str incompleteText)
  else if rc ≠ 0 then (some stderr, respNormed kvs)
  else (none, respNormed kvs)

/-- Normalisation of a parsed response, inside the `try` block; an
`Except.error` is an exception reaching the generic `except Exception`
handler (e.g. `output.get` on a non-dict, or a failing `float`/`int`). -/
def extractFields (output : Json) (rc : Int) (stderr : String) : Except String CmdResult :=
  match output with
  | Json.obj kvs =>
    match costConvVal (costFieldOf kvs), turnsConvVal (turnsFieldOf kvs) with
    | .ok c, .ok n =>
      .ok ⟨decide (rc = 0) && decide (subtypeOf kvs = Json.str "success"),
           (errAndText kvs rc stderr).2, sessionOf kvs, c, n, (errAndText kvs rc stderr).1⟩
    | .error m, _ => .error m
    | .ok _, .error m => .error m
  | _ => .error "AttributeError: object has no attribute get"

def run_claude_command (timeout : Option Int) (oc : InvokeOutcome) : CmdResult :=
  match oc with
  | .completed stdout stderr rc =>
    match parseJson stdout with
    | none =>
      ⟨false, Json.str stdout, Json.null, 0, 0, some ("Failed to parse JSON output: " ++ stderr)⟩
    | some output =>
      match extractFields output rc stderr with
      | .ok res => res
      | .error m => ⟨false, Json.str "", Json.null, 0, 0, some m⟩
  | .timedOut =>
    ⟨false, Json.str "", Json.null, 0, 0,
      some ("Test timed out after " ++ pyOptIntStr timeout ++ " seconds")⟩
  | .fileNotFound =>
    ⟨false, Json.str "", Json.null, 0, 0,
      some "claude CLI not found. Is it installed and in PATH?"⟩
  | .raised m => ⟨false, Json.str "", Json.null, 0, 0, some m⟩

/-! ### Test Runner: `run_single_test`

The two turns' outcomes are explicit inputs (`turn2` being the result the
reflection call returns when it is made); wall-clock duration and the
creation timestamp are ambient inputs. -/

structure Turn1Rec where
  result : Json
  session_id : Json
  cost_usd : ℚ
  num_turns : Int
  error : Option String
deriving DecidableEq

structure ReflRec where
  result : Json
  cost_usd : ℚ
  error : Option String
deriving DecidableEq

structure TestResult where
  schema_version : String
  test_id : String
  success : Bool
  turn1 : Turn1Rec
  turn2_reflection : Option ReflRec
  total_cost_usd : ℚ
  duration_seconds : ℚ
  timestamp : String
deriving DecidableEq

def optStrTruthy : Option String → Bool
  | some s => !s.data.isEmpty
  | none => false

/-- The `error` key is added to a turn record only when the turn's error is
truthy (`if turn.get("error"):`). -/
def pyErrField (e : Option String) : Option String :=
  if optStrTruthy e then e else none

def noSessionNote : String := " No session_id returned from Turn 1."

/-- The persisted attempt record (`result["turn1"]`). -/
def turn1RecOf (turn1 : CmdResult) : Turn1Rec :=
  ⟨turn1.result, turn1.session_id, turn1.cost_usd, turn1.num_turns, pyErrField turn1.error⟩

def run_single_test (test_id : String) (turn1 turn2 : CmdResult)
    (duration : ℚ) (timestamp : String) : TestResult :=
  if pyTruthy turn1.session_id then
    ⟨"1.0", test_id, turn1.success, turn1RecOf turn1,
      some ⟨turn2.result, turn2.cost_usd, pyErrField turn2.error⟩,
      turn1.cost_usd + turn2.cost_usd, duration, timestamp⟩
  else
    ⟨"1.0", test_id, false,
      ⟨turn1.result, turn1.session_id, turn1.cost_usd, turn1.num_turns,
        some (((turn1RecOf turn1).error.getD "") ++ noSessionNote)⟩,
      none, turn1.cost_usd, duration, timestamp⟩

/-! ### Reflection Parser: `parse_reflection` -/

structure ReflOut where
  improvement_suggestions : Json
  what_worked : Json
  what_didnt_work : Json
  process_steps : Json
deriving DecidableEq

def emptyReflOut : ReflOut := ⟨Json.arr .nil, Json.arr .nil, Json.arr .nil, Json.arr .nil⟩

/-- `parse_reflection` from `aggregate_results.py`.  An `Except.error`
models a raised exception (`.strip()` on a truthy non-string response
text); every input the claims quantify over stays in `Except.ok`. -/
def parse_reflection : Option ReflRec → Except String ReflOut
  | none => .ok emptyReflOut
  | some r =>
    if pyTruthy r.result then
      match r.result with
      | Json.str s =>
        match parseJson (strip_markdown_code_fences s) with
        | some (Json.obj kvs) =>
          .ok ⟨jget kvs "improvement_suggestions" (Json.arr .nil),
               jget kvs "what_worked" (Json.arr .nil),
               jget kvs "what_didnt_work" (Json.arr .nil),
               jget kvs "process_steps" (Json.arr .nil)⟩
        | _ => .ok emptyReflOut
      | _ => .error "AttributeError: object has no attribute strip"
    else .ok emptyReflOut

/-! ### Statistics Calculator: `calculate_statistics` -/

structure Stats where
  total_tests : Nat
  passed : Nat
  failed : Nat
  success_rate : ℚ
  total_cost_usd : ℚ
  total_duration_seconds : ℚ
  avg_turns_per_test : ℚ
  avg_cost_per_test : ℚ
  avg_duration_per_test : ℚ
deriving DecidableEq

def zeroStats : Stats := ⟨0, 0, 0, 0, 0, 0, 0, 0, 0⟩

/-- Round-half-to-even to an integer (Python `round`, idealised to exact
rational arithmetic). -/
def rndHalfEven (x : ℚ) : Int :=
  if x - (⌊x⌋ : ℚ) < 1 / 2 then ⌊x⌋
  else if 1 / 2 < x - (⌊x⌋ : ℚ) then ⌊x⌋ + 1
  else if ⌊x⌋ % 2 = 0 then ⌊x⌋ else ⌊x⌋ + 1

/-- Python `round(x, d)`. -/
def pyRound (d : Nat) (x : ℚ) : ℚ := (rndHalfEven (x * 10 ^ d) : ℚ) / 10 ^ d

def calculate_statistics (results : List TestResult) : Stats :=
  if results.isEmpty then zeroStats
  else
    ⟨results.length,
     results.countP (fun r => r.success),
     results.length - results.countP (fun r => r.success),
     pyRound 3 (if 0 < results.length then
       (results.countP (fun r => r.success) : ℚ) / results.length else 0),
     pyRound 4 (results.map (fun r => r.total_cost_usd)).sum,
     pyRound 2 (results.map (fun r => r.duration_seconds)).sum,
     pyRound 1 (if 0 < results.length then
       (((results.map (fun r => r.turn1.num_turns)).sum : Int) : ℚ) / results.length else 0),
     pyRound 4 (if 0 < results.length then
       (results.map (fun r => r.total_cost_usd)).sum / results.length else 0),
     pyRound 2 (if 0 < results.length then
       (results.map (fun r => r.duration_seconds)).sum / results.length else 0)⟩

/-! ### Suggestion Aggregator: `collect_suggestions` -/

/-- `Counter[s] += 1` on an insertion-ordered association list. -/
def counterAdd : List (String × Nat) → String → List (String × Nat)
  | [], s => [(s, 1)]
  | (k, n) :: rest, s =>
    if k = s then (k, n + 1) :: rest else (k, n) :: counterAdd rest s

def insertCountDesc (x : String × Nat) : List (String × Nat) → List (String × Nat)
  | [] => [x]
  | y :: ys => if y.2 < x.2 then x :: y :: ys else y :: insertCountDesc x ys

/-- Stable sort by descending count: model of `Counter.most_common()`, which
orders by count with ties in first-insertion order. -/
def sortCountDesc (l : List (String × Nat)) : List (String × Nat) :=
  l.foldl (fun acc x => insertCountDesc x acc) []

/-- Python `set.add` on an insertion-ordered duplicate-free list. -/
def setAdd (l : List String) (s : String) : List String :=
  if s ∈ l then l else l ++ [s]

def insertLe (s : String) : List String → List String
  | [] => [s]
  | t :: ts => if s ≤ t then s :: t :: ts else t :: insertLe s ts

/-- Model of Python `sorted` on a collection of strings. -/
def pySortStrings (l : List String) : List String :=
  l.foldr insertLe []

/-- One step of `for suggestion in ...: if suggestion and
isinstance(suggestion, str): counter[suggestion.strip()] += 1`. -/
def suggStep (ctr : List (String × Nat)) (j : Json) : List (String × Nat) :=
  match j with
  | Json.str s => if !s.data.isEmpty then counterAdd ctr (pyStrip s) else ctr
  | _ => ctr

/-- One step of the `what_worked` / `what_didnt_work` set accumulation. -/
def setStep (acc : List String) (j : Json) : List String :=
  match j with
  | Json.str s => if !s.data.isEmpty then setAdd acc (pyStrip s) else acc
  | _ => acc

/-- Python iteration (`for x in v`) over a JSON value; raises `TypeError`
for non-iterables.  Strings iterate over their characters and objects over
their keys, as in Python. -/
def pyIter : Json → Except String (List Json)
  | Json.arr xs => .ok xs.toList
  | Json.str s => .ok (s.data.map fun c => Json.str (String.mk [c]))
  | Json.obj kvs => .ok (kvs.keys.map Json.str)
  | _ => .error "TypeError: object is not iterable"

def collectLoop : List TestResult → List (String × Nat) → List String → List String →
    Except String (List (String × Nat) × List String × List String)
  | [], ctr, w, dw => .ok (ctr, w, dw)
  | r :: rest, ctr, w, dw =>
    match parse_reflection r.turn2_reflection with
    | .error e => .error e
    | .ok parsed =>
      match pyIter parsed.improvement_suggestions with
      | .error e => .error e
      | .ok sIt =>
        match pyIter parsed.what_worked with
        | .error e => .error e
        | .ok wIt =>
          match pyIter parsed.what_didnt_work with
          | .error e => .error e
          | .ok dwIt =>
            collectLoop rest (sIt.foldl suggStep ctr) (wIt.foldl setStep w)
              (dwIt.foldl setStep dw)

structure SuggestOut where
  improvement_suggestions : List String
  what_worked : List String
  what_didnt_work : List String
  suggestion_counts : List (String × Nat)
deriving DecidableEq

def collect_suggestions (results : List TestResult) : Except String SuggestOut :=
  match collectLoop results [] [] [] with
  | .error e => .error e
  | .ok (ctr, w, dw) =>
    .ok ⟨(sortCountDesc ctr).map Prod.fst, pySortStrings w, pySortStrings dw, ctr⟩

/-! ### Failed-test records: `collect_failed_tests` -/

structure FailedRec where
  test_id : String
  error : String
deriving DecidableEq

def failedPlaceholder : String := "Test failed (no specific error message)"

def failedErrorOf (e : Option String) : String :=
  match e with
  | some s => if !s.data.isEmpty then s else failedPlaceholder
  | none => failedPlaceholder

def collect_failed_tests (results : List TestResult) : List FailedRec :=
  results.filterMap fun r =>
    if r.success then none
    else some ⟨r.test_id, failedErrorOf r.turn1.error⟩

/-! ### Spec-side characterisations (used to state amended claims) -/

/-- Spec-side reading of the (amended) fence rule: index of the last line
beyond the opening line whose stripped content is exactly the closing
marker (0 when there is none). -/
def lastCloseIdx (ls : List (List Char)) : Nat :=
  (((List.range ls.length).filter
      fun j => decide (0 < j ∧ stripCL (ls.getD j []) = btick3)).getLast?).getD 0

/-- Spec-side fence extraction: content strictly between the opening line
and the last closing line, trimmed; otherwise the trimmed input. -/
def specFenceStripped (t : List Char) : List Char :=
  if 0 < lastCloseIdx (linesCL (stripCL t)) then
    stripCL (joinNL (((linesCL (stripCL t)).drop 1).take
      (lastCloseIdx (linesCL (stripCL t)) - 1)))
  else stripCL t

/-- Spec-side: distinct strings in order of first appearance. -/
def dedupFirst (stream : List String) : List String :=
  stream.foldl setAdd []

/-- Number of occurrences of `s` in a list of strings. -/
def occCount : List String → String → Nat
  | [], _ => 0
  | t :: ts, s => (if t = s then 1 else 0) + occCount ts s

/-- Count recorded for key `s` by an association-list counter (0 if the
key is absent). -/
def cntIn : List (String × Nat) → String → Nat
  | [], _ => 0
  | (k, n) :: rest, s => if k = s then n else cntIn rest s

/-- Spec-side ranked suggestion list (§4.7): distinct trimmed strings with
their occurrence counts over the whole stream, stably sorted by descending
frequency. -/
def specRanked (stream : List String) : List String :=
  (sortCountDesc ((dedupFirst stream).map fun s => (s, occCount stream s))).map Prod.fst

/-- The trimmed suggestion strings contributed by one iterated suggestion
list, in visit order. -/
def suggStrings (items : List Json) : List String :=
  items.filterMap fun j =>
    match j with
    | Json.str s => if !s.data.isEmpty then some (pyStrip s) else none
    | _ => none

/-- The whole batch's suggestion stream, in visit order. -/
def suggestionStream : List TestResult → Except String (List String)
  | [] => .ok []
  | r :: rest =>
    match parse_reflection r.turn2_reflection with
    | .error e => .error e
    | .ok parsed =>
      match pyIter parsed.improvement_suggestions with
      | .error e => .error e
      | .ok it =>
        match suggestionStream rest with
        | .error e => .error e
        | .ok tail => .ok (suggStrings it ++ tail)

/-! ### Concrete inputs used by witnesses and counterexamples -/

/-- A passing Test Result whose reflection response is the given text. -/
def mkReflTR (test_id : String) (txt : String) : TestResult :=
  ⟨"1.0", test_id, true, ⟨Json.str "ok", Json.str "sess", 0, 1, none⟩,
   some ⟨Json.str txt, 0, none⟩, 0, 0, "2026-01-01T00:00:00+00:00"⟩

/-- A Test Result with the given success flag and no reflection. -/
def mkPlainTR (test_id : String) (succ : Bool) : TestResult :=
  ⟨"1.0", test_id, succ, ⟨Json.str "ok", Json.str "sess", 0, 2, none⟩,
   none, 0, 0, "2026-01-01T00:00:00+00:00"⟩

/-! ## Lemmas: lines and stripping -/

theorem linesCL_ne_nil (cs : List Char) : linesCL cs ≠ [] := by
  induction cs with
  | nil => simp [linesCL]
  | cons c cs ih =>
    unfold linesCL
    by_cases h : c = '\n'
    · simp [h]
    · simp only [if_neg h]
      cases hl : linesCL cs <;> simp

theorem linesCL_cons (c : Char) (cs : List Char) :
    linesCL (c :: cs) =
      if c = '\n' then [] :: linesCL cs
      else
        match linesCL cs with
        | l :: ls => (c :: l) :: ls
        | [] => [[c]] := rfl

theorem joinNL_cons_cons (c : Char) (h : List Char) (t : List (List Char)) :
    joinNL ((c :: h) :: t) = c :: joinNL (h :: t) := by
  cases t <;> simp [joinNL]

theorem joinNL_linesCL (cs : List Char) : joinNL (linesCL cs) = cs := by
  induction cs with
  | nil => simp [linesCL, joinNL]
  | cons c cs ih =>
    unfold linesCL
    by_cases h : c = '\n'
    · subst h
      simp only [if_pos rfl]
      obtain ⟨l, ls, hl⟩ := List.exists_cons_of_ne_nil (linesCL_ne_nil cs)
      rw [hl]
      show [] ++ '\n' :: joinNL (l :: ls) = '\n' :: cs
      rw [List.nil_append, ← hl, ih]
    · simp only [if_neg h]
      obtain ⟨l, ls, hl⟩ := List.exists_cons_of_ne_nil (linesCL_ne_nil cs)
      rw [hl, joinNL_cons_cons, ← hl, ih]

theorem linesCL_append_newline (xs ys : List Char) :
    linesCL (xs ++ '\n' :: ys) = linesCL xs ++ linesCL ys := by
  induction xs with
  | nil =>
    rw [List.nil_append, linesCL_cons]
    simp [linesCL]
  | cons c cs ih =>
    rw [List.cons_append, linesCL_cons, linesCL_cons c cs]
    by_cases h : c = '\n'
    · simp [h, ih]
    · simp only [if_neg h, ih]
      obtain ⟨l, ls, hl⟩ := List.exists_cons_of_ne_nil (linesCL_ne_nil cs)
      rw [hl]
      simp

theorem dropWhile_eq_self_of_head (p : Char → Bool) (xs : List Char)
    (h : ∀ c, xs.head? = some c → p c = false) : xs.dropWhile p = xs := by
  cases xs with
  | nil => rfl
  | cons c cs => simp [List.dropWhile_cons, h c rfl]

theorem stripCL_eq_self (xs : List Char)
    (h1 : ∀ c, xs.head? = some c → pyWs c = false)
    (h2 : ∀ c, xs.getLast? = some c → pyWs c = false) : stripCL xs = xs := by
  unfold stripCL
  rw [dropWhile_eq_self_of_head _ _ h1]
  rw [dropWhile_eq_self_of_head _ _ (by simpa [List.head?_reverse] using h2)]
  exact List.reverse_reverse xs

theorem stripCL_btick_prefix (t : List Char) (h : btick3 <+: t) :
    btick3 <+: stripCL t := by
  obtain ⟨u, rfl⟩ := h
  unfold stripCL
  have h1 : (btick3 ++ u).dropWhile pyWs = btick3 ++ u := by
    apply dropWhile_eq_self_of_head
    intro c hc
    have hc' : '`' = c := by simpa [btick3] using hc
    rw [← hc']
    rfl
  rw [h1, List.reverse_append, List.dropWhile_append]
  by_cases he : (u.reverse.dropWhile pyWs).isEmpty
  · rw [if_pos he]
    have hb : (List.dropWhile pyWs btick3.reverse).reverse = btick3 := by rfl
    rw [hb]
  · rw [if_neg he, List.reverse_append, List.reverse_reverse]
    exact ⟨_, rfl⟩

theorem linesCL_btick_head (s : List Char) (h : btick3 <+: s) :
    btick3 <+: (linesCL s).getD 0 [] := by
  obtain ⟨u, rfl⟩ := h
  obtain ⟨l, ls, hl⟩ := List.exists_cons_of_ne_nil (linesCL_ne_nil u)
  show btick3 <+: (linesCL ('`' :: '`' :: '`' :: u)).getD 0 []
  simp only [linesCL_cons, if_neg (by decide : ¬('`' : Char) = '\n'), hl]
  exact ⟨l, rfl⟩

theorem findCloseFrom_eq_filter (ls : List (List Char)) (i : Nat) :
    findCloseFrom ls i =
      (((List.range (i + 1)).filter
        fun j => decide (0 < j ∧ stripCL (ls.getD j []) = btick3)).getLast?).getD 0 := by
  induction i with
  | zero => rfl
  | succ i ih =>
    rw [findCloseFrom, List.range_succ, List.filter_append]
    by_cases h : stripCL (ls.getD (i + 1) []) = btick3
    · rw [if_pos h]
      have hf : List.filter
          (fun j => decide (0 < j ∧ stripCL (ls.getD j []) = btick3)) [i + 1] = [i + 1] := by
        rw [List.filter_cons_of_pos]
        · rfl
        · simp only [decide_eq_true_eq]
          exact ⟨i.succ_pos, h⟩
      rw [hf, List.getLast?_concat]
      rfl
    · rw [if_neg h]
      have hf : List.filter
          (fun j => decide (0 < j ∧ stripCL (ls.getD j []) = btick3)) [i + 1] = [] := by
        rw [List.filter_cons_of_neg]
        · rfl
        · simp only [decide_eq_true_eq, not_and]
          exact fun _ => h
      rw [hf, List.append_nil, ih]

theorem stripCL_wrap_eq_self (x : List Char) :
    stripCL (btick3 ++ '\n' :: (x ++ '\n' :: btick3)) =
      btick3 ++ '\n' :: (x ++ '\n' :: btick3) := by
  apply stripCL_eq_self
  · intro c hc
    have hc' : '`' = c := by simpa [btick3] using hc
    rw [← hc']
    rfl
  · intro c hc
    have heq : btick3 ++ '\n' :: (x ++ '\n' :: btick3) =
        ((btick3 ++ ('\n' :: x)) ++ ['\n']) ++ btick3 := by simp
    rw [heq, List.getLast?_append_of_ne_nil _ (by simp [btick3])] at hc
    have hgl : btick3.getLast? = some '`' := rfl
    rw [hgl] at hc
    have hc' : '`' = c := by simpa using hc
    rw [← hc']
    rfl

theorem linesCL_wrap (x : List Char) :
    linesCL (btick3 ++ '\n' :: (x ++ '\n' :: btick3)) =
      btick3 :: (linesCL x ++ [btick3]) := by
  rw [linesCL_append_newline]
  have h2 : linesCL (x ++ '\n' :: btick3) = linesCL x ++ [btick3] := by
    rw [linesCL_append_newline]
    rfl
  rw [h2]
  rfl

theorem stripFences_wrap (x : List Char) :
    stripFencesCL (btick3 ++ '\n' :: (x ++ '\n' :: btick3)) = stripCL x := by
  have hne : (btick3 ++ '\n' :: (x ++ '\n' :: btick3)).isEmpty = false := rfl
  have hpre : btick3.isPrefixOf (btick3 ++ '\n' :: (x ++ '\n' :: btick3)) = true :=
    List.isPrefixOf_iff_prefix.mpr ⟨_, rfl⟩
  unfold stripFencesCL
  rw [stripCL_wrap_eq_self, linesCL_wrap]
  rw [if_neg (by simp [hne])]
  rw [if_pos hpre]
  have hpre2 : btick3.isPrefixOf ((btick3 :: (linesCL x ++ [btick3])).getD 0 []) = true := by rfl
  rw [if_pos hpre2]
  have hlen : (btick3 :: (linesCL x ++ [btick3])).length - 1 = (linesCL x).length + 1 := by
    simp
  rw [hlen, findCloseFrom]
  have hget : (btick3 :: (linesCL x ++ [btick3])).getD ((linesCL x).length + 1) [] = btick3 := by
    have h1 : (btick3 :: (linesCL x ++ [btick3])).getD ((linesCL x).length + 1) [] =
        (linesCL x ++ [btick3]).getD (linesCL x).length [] := rfl
    rw [h1, List.getD_append_right _ _ _ _ (le_refl _)]
    simp
  rw [hget]
  have hsb : stripCL btick3 = btick3 := by decide
  rw [if_pos hsb]
  rw [if_pos (Nat.succ_pos ((linesCL x).length))]
  have hdrop : (btick3 :: (linesCL x ++ [btick3])).drop 1 = linesCL x ++ [btick3] := rfl
  have hsub : (linesCL x).length + 1 - 1 = (linesCL x).length := rfl
  rw [hdrop, hsub, List.take_left, joinNL_linesCL]

theorem findCloseFrom_last (ls : List (List Char)) (h : ls ≠ []) :
    findCloseFrom ls (ls.length - 1) = lastCloseIdx ls := by
  rw [findCloseFrom_eq_filter, lastCloseIdx]
  have hp : 0 < ls.length := List.length_pos.mpr h
  have he : ls.length - 1 + 1 = ls.length := by omega
  rw [he]

/-! ## Lemmas: rounding -/

theorem rndHalfEven_close (x : ℚ) : |(rndHalfEven x : ℚ) - x| ≤ 1 / 2 := by
  have h1 : ((⌊x⌋ : ℚ)) ≤ x := Int.floor_le x
  have h2 : x < (⌊x⌋ : ℚ) + 1 := Int.lt_floor_add_one x
  unfold rndHalfEven
  by_cases hlt : x - (⌊x⌋ : ℚ) < 1 / 2
  · rw [if_pos hlt, abs_le]
    constructor <;> linarith
  · rw [if_neg hlt]
    by_cases hgt : 1 / 2 < x - (⌊x⌋ : ℚ)
    · rw [if_pos hgt, abs_le]
      constructor <;> push_cast <;> linarith
    · rw [if_neg hgt]
      have heq : x - (⌊x⌋ : ℚ) = 1 / 2 := le_antisymm (not_lt.mp hgt) (not_lt.mp hlt)
      by_cases he : ⌊x⌋ % 2 = 0
      · rw [if_pos he, abs_le]
        constructor <;> linarith
      · rw [if_neg he, abs_le]
        constructor <;> push_cast <;> linarith

theorem pyRound_close (d : Nat) (x : ℚ) : |pyRound d x - x| ≤ 1 / (2 * 10 ^ d) := by
  have hpos : (0 : ℚ) < 10 ^ d := by positivity
  have h := rndHalfEven_close (x * 10 ^ d)
  unfold pyRound
  have heq : (rndHalfEven (x * 10 ^ d) : ℚ) / 10 ^ d - x =
      ((rndHalfEven (x * 10 ^ d) : ℚ) - x * 10 ^ d) / 10 ^ d := by
    field_simp
    ring
  rw [heq, abs_div, abs_of_pos hpos]
  calc |(rndHalfEven (x * 10 ^ d) : ℚ) - x * 10 ^ d| / 10 ^ d
      ≤ (1 / 2) / 10 ^ d := (div_le_div_iff_of_pos_right hpos).mpr h
    _ = 1 / (2 * 10 ^ d) := by rw [div_div]

theorem pyRound3_close (x : ℚ) : |pyRound 3 x - x| ≤ 1 / 2000 := by
  have h := pyRound_close 3 x
  norm_num at h
  exact h

/-! ## Lemmas: failed-test records -/

theorem failedErrorOf_ne_empty (e : Option String) : failedErrorOf e ≠ "" := by
  cases e with
  | none =>
    show failedPlaceholder ≠ ""
    decide
  | some s =>
    show (if (!s.data.isEmpty) = true then s else failedPlaceholder) ≠ ""
    by_cases hs : s.data.isEmpty = true
    · rw [hs, if_neg (by decide)]
      decide
    · have hb : s.data.isEmpty = false := by
        cases hh : s.data.isEmpty
        · rfl
        · exact absurd hh hs
      rw [hb, if_pos (show (!false) = true from rfl)]
      intro h
      apply hs
      rw [h]
      rfl

/-! ## Lemmas: Agent Invoker reduction -/

theorem run_claude_command_parsed (tmo : Option Int) (stdout stderr : String)
    (rc : Int) (kvs : JsonFields) (hp : parseJson stdout = some (Json.obj kvs)) :
    run_claude_command tmo (.completed stdout stderr rc) =
      match extractFields (Json.obj kvs) rc stderr with
      | .ok res => res
      | .error m => ⟨false, Json.str "", Json.null, 0, 0, some m⟩ := by
  simp only [run_claude_command, hp]

theorem extractFields_ok (kvs : JsonFields) (rc : Int) (stderr : String)
    (c : ℚ) (n : Int)
    (hc : costConvVal (costFieldOf kvs) = .ok c)
    (ht : turnsConvVal (turnsFieldOf kvs) = .ok n) :
    extractFields (Json.obj kvs) rc stderr =
      .ok ⟨decide (rc = 0) && decide (subtypeOf kvs = Json.str "success"),
           (errAndText kvs rc stderr).2, sessionOf kvs, c, n,
           (errAndText kvs rc stderr).1⟩ := by
  simp only [extractFields, hc, ht]

/-! ## Claim theorems -/

/-- Claim C1 (amended): the persisted Test Result's overall success flag is
true iff the attempt turn succeeded AND the attempt produced a (truthy)
session identifier; the reflection turn's outcome (`t2`) does not occur in
the formula, so it never changes overall success. -/
theorem claim_c1_success_formula (test_id : String) (t1 t2 : CmdResult)
    (d : ℚ) (ts : String) :
    (run_single_test test_id t1 t2 d ts).success =
      (t1.success && pyTruthy t1.session_id) := by
  unfold run_single_test
  by_cases h : pyTruthy t1.session_id = true
  · rw [if_pos h, h]
    show t1.success = (t1.success && true)
    rw [Bool.and_true]
  · rw [if_neg h]
    have h' : pyTruthy t1.session_id = false := by
      cases hh : pyTruthy t1.session_id
      · rfl
      · exact absurd hh h
    rw [h']
    show false = (t1.success && false)
    rw [Bool.and_false]

/-- Claim C1 counterexample to the claim as stated: an attempt turn that
succeeded (parsed response, zero exit, default `subtype`) but carried no
session identifier yields a Test Result with `success = false`, so success
is not equivalent to "the attempt turn succeeded". -/
theorem claim_c1_counterexample :
    (run_claude_command none (.completed "\x7b\"result\": \"done\"\x7d" "" 0)).success = true ∧
    (run_single_test "t1"
      (run_claude_command none (.completed "\x7b\"result\": \"done\"\x7d" "" 0))
      (run_claude_command none (.completed "\x7b\"result\": \"done\"\x7d" "" 0))
      0 "ts").success = false := by
  exact ⟨rfl, rfl⟩

/-- Claim C4: when the attempt turn yields no (truthy) session identifier,
the Test Result is finalised with `success = false`, the reflection field
absent, and the attempt's error text augmented with the no-session note. -/
theorem claim_c4_no_session (test_id : String) (t1 t2 : CmdResult)
    (d : ℚ) (ts : String) (h : pyTruthy t1.session_id = false) :
    (run_single_test test_id t1 t2 d ts).success = false ∧
    (run_single_test test_id t1 t2 d ts).turn2_reflection = none ∧
    (run_single_test test_id t1 t2 d ts).turn1.error =
      some (((turn1RecOf t1).error.getD "") ++ noSessionNote) := by
  unfold run_single_test
  rw [if_neg (by rw [h]; exact Bool.false_ne_true)]
  exact ⟨rfl, rfl, rfl⟩

/-- Claim C4 witness at a concrete attempt turn with no session id. -/
theorem claim_c4_witness :
    (run_single_test "t" ⟨true, Json.str "r", Json.null, 1, 2, none⟩
      ⟨true, Json.str "x", Json.null, 0, 1, none⟩ 0 "ts").success = false ∧
    (run_single_test "t" ⟨true, Json.str "r", Json.null, 1, 2, none⟩
      ⟨true, Json.str "x", Json.null, 0, 1, none⟩ 0 "ts").turn2_reflection = none ∧
    (run_single_test "t" ⟨true, Json.str "r", Json.null, 1, 2, none⟩
      ⟨true, Json.str "x", Json.null, 0, 1, none⟩ 0 "ts").turn1.error =
      some " No session_id returned from Turn 1." := by
  have h := claim_c4_no_session "t" ⟨true, Json.str "r", Json.null, 1, 2, none⟩
    ⟨true, Json.str "x", Json.null, 0, 1, none⟩ 0 "ts" rfl
  exact h

/-- Claim C8: every invocation fault (process missing, timeout, other
exception) is converted into a failed Turn Result with zero cost, zero
turns, and a diagnostic error; in the timeout case the error message cites
the configured bound. -/
theorem claim_c8_invocation_faults (tmo : Option Int) (oc : InvokeOutcome)
    (h : oc = .timedOut ∨ oc = .fileNotFound ∨ ∃ m, oc = .raised m) :
    (run_claude_command tmo oc).success = false ∧
    (run_claude_command tmo oc).cost_usd = 0 ∧
    (run_claude_command tmo oc).num_turns = 0 ∧
    (run_claude_command tmo oc).error.isSome = true ∧
    (∀ t : Int, oc = .timedOut → tmo = some t →
      (run_claude_command tmo oc).error =
        some ("Test timed out after " ++ toString t ++ " seconds")) := by
  rcases h with h | h | ⟨m, h⟩ <;> subst h
  · refine ⟨rfl, rfl, rfl, rfl, ?_⟩
    intro t _ ht
    subst ht
    rfl
  · exact ⟨rfl, rfl, rfl, rfl, fun t ht _ => by cases ht⟩
  · exact ⟨rfl, rfl, rfl, rfl, fun t ht _ => by cases ht⟩

/-- Claim C2 (amended): `passed + failed = total_tests` always; the empty
result list yields the all-zero statistics record (so also a zero success
rate) without raising; and `success_rate` is `passed / total_tests` rounded
to 3 decimal places, hence within `1/2000` of the exact ratio — not the
exact ratio itself. -/
theorem claim_c2_statistics :
    (∀ results : List TestResult,
      (calculate_statistics results).passed + (calculate_statistics results).failed =
        (calculate_statistics results).total_tests) ∧
    calculate_statistics [] = zeroStats ∧
    (∀ results : List TestResult, results ≠ [] →
      |(calculate_statistics results).success_rate -
        ((calculate_statistics results).passed : ℚ) /
          ((calculate_statistics results).total_tests : ℚ)| ≤ 1 / 2000) := by
  refine ⟨?_, rfl, ?_⟩
  · intro results
    unfold calculate_statistics
    by_cases h : results.isEmpty = true
    · rw [if_pos h]
      rfl
    · rw [if_neg h]
      show results.countP (fun r => r.success) +
        (results.length - results.countP (fun r => r.success)) = results.length
      have hle := List.countP_le_length (fun r => r.success) (l := results)
      omega
  · intro results hne
    have hlen : 0 < results.length := List.length_pos.mpr hne
    unfold calculate_statistics
    rw [if_neg (by simp [List.isEmpty_iff, hne])]
    show |pyRound 3 (if 0 < results.length then
        (results.countP (fun r => r.success) : ℚ) / results.length else 0) -
      (results.countP (fun r => r.success) : ℚ) / (results.length : ℚ)| ≤ 1 / 2000
    rw [if_pos hlen]
    exact pyRound3_close _

/-- Claim C2 witness: a batch of three results with one pass; the sum
identity holds and the reported rate is within `1/2000` of `1/3`. -/
theorem claim_c2_witness :
    (calculate_statistics [mkPlainTR "a" true, mkPlainTR "b" false, mkPlainTR "c" false]).passed +
      (calculate_statistics [mkPlainTR "a" true, mkPlainTR "b" false, mkPlainTR "c" false]).failed =
      (calculate_statistics [mkPlainTR "a" true, mkPlainTR "b" false, mkPlainTR "c" false]).total_tests ∧
    |(calculate_statistics [mkPlainTR "a" true, mkPlainTR "b" false, mkPlainTR "c" false]).success_rate -
      ((calculate_statistics [mkPlainTR "a" true, mkPlainTR "b" false, mkPlainTR "c" false]).passed : ℚ) /
        ((calculate_statistics [mkPlainTR "a" true, mkPlainTR "b" false, mkPlainTR "c" false]).total_tests : ℚ)| ≤
      1 / 2000 := by
  exact ⟨claim_c2_statistics.1 _, claim_c2_statistics.2.2 _ (by simp)⟩

/-- Claim C2 counterexample to exactness as stated: with 1 pass out of 3
the persisted `success_rate` is the rounded `333/1000`, which differs from
the exact `passed / total_tests = 1/3`. -/
theorem claim_c2_counterexample :
    (calculate_statistics [mkPlainTR "a" true, mkPlainTR "b" false,
        mkPlainTR "c" false]).success_rate = 333 / 1000 ∧
    ((calculate_statistics [mkPlainTR "a" true, mkPlainTR "b" false,
        mkPlainTR "c" false]).passed : ℚ) /
      ((calculate_statistics [mkPlainTR "a" true, mkPlainTR "b" false,
        mkPlainTR "c" false]).total_tests : ℚ) = 1 / 3 ∧
    (333 / 1000 : ℚ) ≠ 1 / 3 := by
  refine ⟨?_, ?_, by norm_num⟩
  · show pyRound 3 (if 0 < (3 : Nat) then ((1 : Nat) : ℚ) / ((3 : Nat) : ℚ) else 0) = 333 / 1000
    rw [if_pos (by norm_num)]
    unfold pyRound rndHalfEven
    norm_num
  · show ((1 : Nat) : ℚ) / ((3 : Nat) : ℚ) = 1 / 3
    norm_num

/-- Claim C9 (amended): every derived Failed-Test Record carries a
non-empty error string; a failing Test Result contributes a record with its
test identifier whose error is the attempt turn's error when that is
truthy, and the fixed placeholder exactly when the attempt turn records no
truthy error — errors recorded elsewhere in the Test Result (e.g. in the
reflection turn) are not consulted. -/
theorem claim_c9_failed_records :
    (∀ (results : List TestResult) (fr : FailedRec),
      fr ∈ collect_failed_tests results → fr.error ≠ "") ∧
    (∀ (results : List TestResult) (r : TestResult), r ∈ results → r.success = false →
      FailedRec.mk r.test_id (failedErrorOf r.turn1.error) ∈ collect_failed_tests results ∧
      (optStrTruthy r.turn1.error = true → failedErrorOf r.turn1.error = r.turn1.error.getD "") ∧
      (optStrTruthy r.turn1.error = false → failedErrorOf r.turn1.error = failedPlaceholder)) := by
  constructor
  · intro results fr hmem
    unfold collect_failed_tests at hmem
    rw [List.mem_filterMap] at hmem
    obtain ⟨r, _, hf⟩ := hmem
    by_cases hs : r.success = true
    · rw [if_pos hs] at hf
      cases hf
    · rw [if_neg hs] at hf
      have : fr = FailedRec.mk r.test_id (failedErrorOf r.turn1.error) := by
        cases hf
        rfl
      rw [this]
      exact failedErrorOf_ne_empty _
  · intro results r hr hfail
    refine ⟨?_, ?_, ?_⟩
    · rw [collect_failed_tests, List.mem_filterMap]
      exact ⟨r, hr, by rw [hfail]; rfl⟩
    · intro ht
      cases he : r.turn1.error with
      | none =>
        rw [he] at ht
        exact Bool.noConfusion ht
      | some s =>
        rw [he] at ht
        show (if (!s.data.isEmpty) = true then s else failedPlaceholder) = (some s).getD ""
        have hb : s.data.isEmpty = false := by
          cases hh : s.data.isEmpty
          · rfl
          · simp only [optStrTruthy, hh] at ht
            exact Bool.noConfusion ht
        rw [hb, if_pos (show (!false) = true from rfl)]
        rfl
    · intro ht
      cases he : r.turn1.error with
      | none => rfl
      | some s =>
        rw [he] at ht
        show (if (!s.data.isEmpty) = true then s else failedPlaceholder) = failedPlaceholder
        have hb : s.data.isEmpty = true := by
          cases hh : s.data.isEmpty
          · simp only [optStrTruthy, hh] at ht
            exact Bool.noConfusion ht
          · rfl
        rw [hb, if_neg (by decide)]

/-- Claim C9 witness: one failing result whose attempt records a truthy
error and one whose attempt records none. -/
theorem claim_c9_witness :
    FailedRec.mk "f1" (failedErrorOf (some "boom")) ∈
      collect_failed_tests
        [⟨"1.0", "f1", false, ⟨Json.str "r", Json.null, 0, 1, some "boom"⟩, none, 0, 0, "ts"⟩,
         ⟨"1.0", "f2", false, ⟨Json.str "r", Json.null, 0, 1, none⟩, none, 0, 0, "ts"⟩] ∧
    failedErrorOf (some "boom") = "boom" ∧
    FailedRec.mk "f2" (failedErrorOf (none : Option String)) ∈
      collect_failed_tests
        [⟨"1.0", "f1", false, ⟨Json.str "r", Json.null, 0, 1, some "boom"⟩, none, 0, 0, "ts"⟩,
         ⟨"1.0", "f2", false, ⟨Json.str "r", Json.null, 0, 1, none⟩, none, 0, 0, "ts"⟩] ∧
    failedErrorOf (none : Option String) = failedPlaceholder := by
  have h1 := claim_c9_failed_records.2
    [⟨"1.0", "f1", false, ⟨Json.str "r", Json.null, 0, 1, some "boom"⟩, none, 0, 0, "ts"⟩,
     ⟨"1.0", "f2", false, ⟨Json.str "r", Json.null, 0, 1, none⟩, none, 0, 0, "ts"⟩]
    ⟨"1.0", "f1", false, ⟨Json.str "r", Json.null, 0, 1, some "boom"⟩, none, 0, 0, "ts"⟩
    (by simp) rfl
  have h2 := claim_c9_failed_records.2
    [⟨"1.0", "f1", false, ⟨Json.str "r", Json.null, 0, 1, some "boom"⟩, none, 0, 0, "ts"⟩,
     ⟨"1.0", "f2", false, ⟨Json.str "r", Json.null, 0, 1, none⟩, none, 0, 0, "ts"⟩]
    ⟨"1.0", "f2", false, ⟨Json.str "r", Json.null, 0, 1, none⟩, none, 0, 0, "ts"⟩
    (by simp) rfl
  exact ⟨h1.1, h1.2.1 rfl, h2.1, h2.2.2 rfl⟩

/-- Claim C9 counterexample to "anywhere in the Test Result": a failing
result whose attempt records no error but whose reflection turn records
one still falls back to the placeholder — the reflection error is ignored,
so the fallback is not limited to results with no error recorded anywhere. -/
theorem claim_c9_counterexample :
    collect_failed_tests
      [⟨"1.0", "t9", false, ⟨Json.str "r", Json.null, 0, 1, none⟩,
        some ⟨Json.str "", 0, some "reflection exploded"⟩, 0, 0, "ts"⟩] =
      [⟨"t9", "Test failed (no specific error message)"⟩] ∧
    (Option.map (fun rr => rr.error)
      (⟨"1.0", "t9", false, ⟨Json.str "r", Json.null, 0, 1, none⟩,
        some ⟨Json.str "", 0, some "reflection exploded"⟩, 0, 0, "ts"⟩ :
        TestResult).turn2_reflection) = some (some "reflection exploded") := by
  exact ⟨rfl, rfl⟩

/-- Claim C3 (amended): for a parsed response object carrying the
turn-limit-exceeded marker, provided the response's cost and turn-count
fields convert cleanly (as absent or numeric fields do), the Turn Result is
non-success, its error is the message citing the response's reported turn
count, and its response text is truthy (non-empty) — the placeholder is
substituted when the response's text was empty. -/
theorem claim_c3_max_turns (tmo : Option Int) (stdout stderr : String) (rc : Int)
    (kvs : JsonFields) (c : ℚ) (n : Int)
    (hp : parseJson stdout = some (Json.obj kvs))
    (hs : subtypeOf kvs = Json.str "error_max_turns")
    (hc : costConvVal (costFieldOf kvs) = .ok c)
    (ht : turnsConvVal (turnsFieldOf kvs) = .ok n) :
    (run_claude_command tmo (.completed stdout stderr rc)).success = false ∧
    (run_claude_command tmo (.completed stdout stderr rc)).error =
      some (maxTurnsMsg (turnsFieldOf kvs)) ∧
    pyTruthy (run_claude_command tmo (.completed stdout stderr rc)).result = true := by
  rw [run_claude_command_parsed tmo stdout stderr rc kvs hp,
    extractFields_ok kvs rc stderr c n hc ht]
  refine ⟨?_, ?_, ?_⟩
  · show (decide (rc = 0) && decide (subtypeOf kvs = Json.str "success")) = false
    rw [hs]
    simp
  · show (errAndText kvs rc stderr).1 = some (maxTurnsMsg (turnsFieldOf kvs))
    unfold errAndText
    rw [if_pos hs]
  · show pyTruthy (errAndText kvs rc stderr).2 = true
    unfold errAndText
    rw [if_pos hs]
    by_cases hr : pyTruthy (respNormed kvs) = true
    · rw [if_pos hr]
      exact hr
    · rw [if_neg hr]
      rfl

/-- Claim C3 witness: a marker-carrying response with no text, no cost and
no turn count; the placeholder text is substituted and the message cites
the defaulted count. -/
theorem claim_c3_witness :
    (run_claude_command (some 300)
      (.completed "\x7b\"subtype\": \"error_max_turns\"\x7d" "" 0)).success = false ∧
    (run_claude_command (some 300)
      (.completed "\x7b\"subtype\": \"error_max_turns\"\x7d" "" 0)).error =
      some (maxTurnsMsg (turnsFieldOf
        (JsonFields.cons "subtype" (Json.str "error_max_turns") JsonFields.nil))) ∧
    pyTruthy (run_claude_command (some 300)
      (.completed "\x7b\"subtype\": \"error_max_turns\"\x7d" "" 0)).result = true :=
  claim_c3_max_turns (some 300) "\x7b\"subtype\": \"error_max_turns\"\x7d" "" 0
    (JsonFields.cons "subtype" (Json.str "error_max_turns") JsonFields.nil) 0 1
    rfl rfl rfl rfl

/-- Claim C3 counterexample to the claim as stated: a response carrying the
marker whose cost field is a non-numeric string makes the `float()`
conversion raise inside the `try` block, so the generic handler returns an
empty response text and an error that does not cite any turn count. -/
theorem claim_c3_counterexample :
    parseJson "\x7b\"subtype\": \"error_max_turns\", \"total_cost_usd\": \"oops\"\x7d" =
      some (Json.obj (JsonFields.cons "subtype" (Json.str "error_max_turns")
        (JsonFields.cons "total_cost_usd" (Json.str "oops") JsonFields.nil))) ∧
    (run_claude_command (some 300)
      (.completed "\x7b\"subtype\": \"error_max_turns\", \"total_cost_usd\": \"oops\"\x7d"
        "" 0)).result = Json.str "" ∧
    pyTruthy (Json.str "") = false ∧
    (run_claude_command (some 300)
      (.completed "\x7b\"subtype\": \"error_max_turns\", \"total_cost_usd\": \"oops\"\x7d"
        "" 0)).error = some "could not convert string to float: oops" := by
  exact ⟨rfl, rfl, rfl, rfl⟩

/-- Claim C10 (amended): a missing or zero turn-count field is normalised
to 1; whenever the turn-count field is absent or a non-negative integer
(and the cost field converts cleanly), the reported turn count is at least
1.  A negative integer or a numeric string passes through `int()` unchanged
and can be reported below 1. -/
theorem claim_c10_turn_count (tmo : Option Int) (stdout stderr : String) (rc : Int)
    (kvs : JsonFields) (c : ℚ) (n : Int)
    (hp : parseJson stdout = some (Json.obj kvs))
    (hc : costConvVal (costFieldOf kvs) = .ok c)
    (ht : turnsFieldOf kvs = Json.int n) (hn : 0 ≤ n) :
    1 ≤ (run_claude_command tmo (.completed stdout stderr rc)).num_turns := by
  have hconv : turnsConvVal (turnsFieldOf kvs) = .ok (if n = 0 then 1 else n) := by
    rw [ht]
    by_cases h0 : n = 0
    · subst h0
      rfl
    · show (if pyTruthy (Json.int n) = true then pyIntJ (Json.int n) else .ok 1) =
        .ok (if n = 0 then 1 else n)
      rw [if_neg h0, if_pos (by simp [pyTruthy, h0])]
      rfl
  rw [run_claude_command_parsed tmo stdout stderr rc kvs hp,
    extractFields_ok kvs rc stderr c (if n = 0 then 1 else n) hc hconv]
  show 1 ≤ (if n = 0 then 1 else n)
  by_cases h0 : n = 0
  · rw [if_pos h0]
  · rw [if_neg h0]
    omega

/-- Claim C10 witness: a response reporting zero turns is normalised to a
reported count of 1. -/
theorem claim_c10_witness :
    1 ≤ (run_claude_command (some 300)
      (.completed "\x7b\"num_turns\": 0\x7d" "" 0)).num_turns :=
  claim_c10_turn_count (some 300) "\x7b\"num_turns\": 0\x7d" "" 0
    (JsonFields.cons "num_turns" (Json.int 0) JsonFields.nil) 0 0
    rfl rfl rfl le_rfl

/-- Claim C10 counterexample to the claim as stated: a turn-count field
carrying the string "0" is truthy, so it bypasses the zero-normalisation
and `int("0")` reports 0; a negative integer is likewise passed through. -/
theorem claim_c10_counterexample :
    (run_claude_command (some 300)
      (.completed "\x7b\"num_turns\": \"0\"\x7d" "" 0)).num_turns = 0 ∧
    (run_claude_command (some 300)
      (.completed "\x7b\"num_turns\": -1\x7d" "" 0)).num_turns = -1 ∧
    ¬(1 : Int) ≤ 0 := by
  exact ⟨rfl, rfl, by decide⟩

/-- Claim C5 (amended): for every input that begins with the fence marker,
`strip_markdown_code_fences` returns the content strictly between the
opening fence line and the LAST subsequent line whose stripped content is
exactly the closing marker (not the nearest), itself trimmed of
surrounding whitespace; when no such closing line exists it returns the
input trimmed of surrounding whitespace (not the original unmodified). -/
theorem claim_c5_fence_strip (s : String) (h : btick3.isPrefixOf s.data = true) :
    strip_markdown_code_fences s = String.mk (specFenceStripped s.data) := by
  have hp : btick3 <+: s.data := List.isPrefixOf_iff_prefix.mp h
  have hp2 : btick3 <+: stripCL s.data := stripCL_btick_prefix _ hp
  have hne : s.data.isEmpty = false := by
    obtain ⟨u, hu⟩ := hp
    rw [← hu]
    rfl
  unfold strip_markdown_code_fences stripFencesCL specFenceStripped
  rw [if_neg (by simp [hne])]
  rw [if_pos (List.isPrefixOf_iff_prefix.mpr hp2)]
  rw [if_pos (List.isPrefixOf_iff_prefix.mpr (linesCL_btick_head _ hp2))]
  rw [findCloseFrom_last _ (linesCL_ne_nil _)]

/-- Claim C5 witness: a well-formed single fenced block extracts its
content. -/
theorem claim_c5_witness :
    strip_markdown_code_fences "```\nx\n```" =
      String.mk (specFenceStripped "```\nx\n```".data) ∧
    strip_markdown_code_fences "```\nx\n```" = "x" :=
  ⟨claim_c5_fence_strip "```\nx\n```" rfl, rfl⟩

/-- Claim C5 counterexample to the claim as stated: with two closing fence
lines the function extracts up to the LAST one, not the nearest subsequent
one (which would give "a"); and with no closing fence the returned text is
the trimmed input, not the original unmodified. -/
theorem claim_c5_counterexample :
    strip_markdown_code_fences "```\na\n```\nb\n```" = "a\n```\nb" ∧
    ("a\n```\nb" : String) ≠ "a" ∧
    strip_markdown_code_fences "```x\ny " = "```x\ny" ∧
    ("```x\ny" : String) ≠ "```x\ny " := by
  refine ⟨rfl, by decide, rfl, by decide⟩

/-- Evaluation form of `parse_reflection` on records with string-typed
response text. -/
theorem parse_reflection_str (s : String) (c : ℚ) (e : Option String) :
    parse_reflection (some ⟨Json.str s, c, e⟩) =
      if (!s.data.isEmpty) = true then
        match parseJson (strip_markdown_code_fences s) with
        | some (Json.obj kvs) =>
          .ok ⟨jget kvs "improvement_suggestions" (Json.arr .nil),
               jget kvs "what_worked" (Json.arr .nil),
               jget kvs "what_didnt_work" (Json.arr .nil),
               jget kvs "process_steps" (Json.arr .nil)⟩
        | _ => .ok emptyReflOut
      else .ok emptyReflOut := rfl

/-- Claim C6 (amended): the Reflection Parser yields identical output for a
payload wrapped in a triple-backtick fenced block and the same payload
unwrapped (whenever the trimmed payload does not itself begin with a
fence marker); absent input, empty response text, unparseable text, and
parsed non-object text all yield the four-empty-list bundle without
raising; and when the text parses as an object, each of the four lists
defaults to empty per missing key — an object carrying only some of the
four keys yields the present lists, not four empty lists. -/
theorem claim_c6_reflection_defaults :
    (∀ (s : String) (c c' : ℚ) (e e' : Option String),
      btick3.isPrefixOf (stripCL s.data) = false →
      parse_reflection (some ⟨Json.str ("```\n" ++ s ++ "\n```"), c, e⟩) =
        parse_reflection (some ⟨Json.str s, c', e'⟩)) ∧
    parse_reflection none = .ok emptyReflOut ∧
    (∀ (c : ℚ) (e : Option String),
      parse_reflection (some ⟨Json.str "", c, e⟩) = .ok emptyReflOut) ∧
    (∀ (r : ReflRec) (s : String), r.result = Json.str s →
      parseJson (strip_markdown_code_fences s) = none →
      parse_reflection (some r) = .ok emptyReflOut) ∧
    (∀ (r : ReflRec) (s : String) (v : Json), r.result = Json.str s →
      parseJson (strip_markdown_code_fences s) = some v →
      (∀ kvs, v ≠ Json.obj kvs) →
      parse_reflection (some r) = .ok emptyReflOut) ∧
    (∀ (r : ReflRec) (s : String) (kvs : JsonFields), r.result = Json.str s →
      parseJson (strip_markdown_code_fences s) = some (Json.obj kvs) →
      JsonFields.find? kvs "what_worked" = none →
      ∃ out, parse_reflection (some r) = .ok out ∧ out.what_worked = Json.arr .nil) := by
  refine ⟨?_, rfl, fun c e => rfl, ?_, ?_, ?_⟩
  · intro s c c' e e' hnp
    rw [parse_reflection_str, parse_reflection_str]
    have hd : ("```\n" ++ s ++ "\n```").data =
        btick3 ++ '\n' :: (s.data ++ '\n' :: btick3) := by
      rw [String.data_append, String.data_append]
      rfl
    have hw : ("```\n" ++ s ++ "\n```").data.isEmpty = false := by
      rw [hd]
      rfl
    rw [hw, if_pos (show (!false) = true from rfl)]
    have hsf : strip_markdown_code_fences ("```\n" ++ s ++ "\n```") =
        String.mk (stripCL s.data) := by
      unfold strip_markdown_code_fences
      rw [hd, stripFences_wrap]
    rw [hsf]
    by_cases hse : s.data.isEmpty = true
    · rw [hse, if_neg (by decide)]
      have hd0 : s.data = [] := by
        cases hl : s.data with
        | nil => rfl
        | cons a l => rw [hl] at hse; exact Bool.noConfusion hse
      rw [hd0]
      rfl
    · have hb : s.data.isEmpty = false := by
        cases hh : s.data.isEmpty
        · rfl
        · exact absurd hh hse
      rw [hb, if_pos (show (!false) = true from rfl)]
      have hrs : strip_markdown_code_fences s = String.mk (stripCL s.data) := by
        unfold strip_markdown_code_fences stripFencesCL
        rw [if_neg (by simp [hb]), if_neg (by simp [hnp])]
      rw [hrs]
  · intro r s hr hp
    obtain ⟨res, rc, re⟩ := r
    cases hr
    rw [parse_reflection_str]
    by_cases hse : s.data.isEmpty = true
    · rw [hse, if_neg (by decide)]
    · have hb : s.data.isEmpty = false := by
        cases hh : s.data.isEmpty
        · rfl
        · exact absurd hh hse
      rw [hb, if_pos (show (!false) = true from rfl), hp]
  · intro r s v hr hp hno
    obtain ⟨res, rc, re⟩ := r
    cases hr
    rw [parse_reflection_str]
    by_cases hse : s.data.isEmpty = true
    · rw [hse, if_neg (by decide)]
    · have hb : s.data.isEmpty = false := by
        cases hh : s.data.isEmpty
        · rfl
        · exact absurd hh hse
      rw [hb, if_pos (show (!false) = true from rfl), hp]
      cases v with
      | obj kvs => exact absurd rfl (hno kvs)
      | null => rfl
      | bool b => rfl
      | int n => rfl
      | str t => rfl
      | arr xs => rfl
  · intro r s kvs hr hp hfind
    obtain ⟨res, rc, re⟩ := r
    cases hr
    rw [parse_reflection_str]
    by_cases hse : s.data.isEmpty = true
    · exfalso
      have hd0 : s.data = [] := by
        cases hl : s.data with
        | nil => rfl
        | cons a l => rw [hl] at hse; exact Bool.noConfusion hse
      have hs0 : s = "" := by
        cases s
        simp at hd0
        rw [hd0]
      rw [hs0] at hp
      exact Option.noConfusion hp
    · have hb : s.data.isEmpty = false := by
        cases hh : s.data.isEmpty
        · rfl
        · exact absurd hh hse
      rw [hb, if_pos (show (!false) = true from rfl), hp]
      refine ⟨_, rfl, ?_⟩
      show jget kvs "what_worked" (Json.arr .nil) = Json.arr .nil
      unfold jget
      rw [hfind]

/-- Claim C6 witness: a fenced JSON payload parses identically to the same
payload unwrapped, and prose yields the four-empty-list bundle. -/
theorem claim_c6_witness :
    parse_reflection (some ⟨Json.str
        ("```\n" ++ "\x7b\"process_steps\": [\"p\"]\x7d" ++ "\n```"), 1, none⟩) =
      parse_reflection (some ⟨Json.str "\x7b\"process_steps\": [\"p\"]\x7d", 2, some "x"⟩) ∧
    parse_reflection (some ⟨Json.str "This is prose.", 0, none⟩) = .ok emptyReflOut := by
  constructor
  · exact claim_c6_reflection_defaults.1 "\x7b\"process_steps\": [\"p\"]\x7d" 1 2 none
      (some "x") rfl
  · exact claim_c6_reflection_defaults.2.2.2.1
      ⟨Json.str "This is prose.", 0, none⟩ "This is prose." rfl rfl

/-- Claim C6 counterexample to the four-keys wording: a payload object
carrying only `what_worked` does not "parse as a structured object with
the four expected keys", yet the parser returns its `what_worked` list,
not four empty lists. -/
theorem claim_c6_counterexample :
    parse_reflection (some ⟨Json.str "\x7b\"what_worked\": [\"w\"]\x7d", 0, none⟩) =
      .ok ⟨Json.arr .nil, Json.arrL [Json.str "w"], Json.arr .nil, Json.arr .nil⟩ ∧
    Json.arrL [Json.str "w"] ≠ Json.arr .nil := by
  exact ⟨rfl, by decide⟩

/-! ## Lemmas: counters and ranking (Suggestion Aggregator) -/

theorem keys_counterAdd (ctr : List (String × Nat)) (s : String) :
    (counterAdd ctr s).map Prod.fst = setAdd (ctr.map Prod.fst) s := by
  induction ctr with
  | nil => simp [counterAdd, setAdd]
  | cons kv rest ih =>
    obtain ⟨k, n⟩ := kv
    by_cases h : k = s
    · subst h
      rw [show counterAdd ((k, n) :: rest) k = (k, n + 1) :: rest from by
        simp [counterAdd]]
      rw [show setAdd (((k, n) :: rest).map Prod.fst) k = ((k, n) :: rest).map Prod.fst from by
        simp [setAdd]]
      simp
    · rw [show counterAdd ((k, n) :: rest) s = (k, n) :: counterAdd rest s from by
        simp [counterAdd, h]]
      show k :: (counterAdd rest s).map Prod.fst = setAdd (k :: rest.map Prod.fst) s
      rw [ih]
      unfold setAdd
      by_cases hm : s ∈ rest.map Prod.fst
      · rw [if_pos hm, if_pos (by simp [hm])]
      · have hnc : s ∉ k :: rest.map Prod.fst := by
          intro hmem
          rcases List.mem_cons.mp hmem with h1 | h2
          · exact h h1.symm
          · exact hm h2
        rw [if_neg hm, if_neg hnc]
        simp

theorem cntIn_counterAdd (ctr : List (String × Nat)) (t s : String) :
    cntIn (counterAdd ctr t) s = cntIn ctr s + (if t = s then 1 else 0) := by
  induction ctr with
  | nil =>
    show (if t = s then 1 else 0) = (0 : Nat) + (if t = s then 1 else 0)
    rw [Nat.zero_add]
  | cons kv rest ih =>
    obtain ⟨k, n⟩ := kv
    by_cases hk : k = t
    · subst hk
      by_cases hs : k = s
      · subst hs
        simp [counterAdd, cntIn]
      · simp [counterAdd, cntIn, hs]
    · by_cases hs : k = s
      · subst hs
        have hts : ¬t = k := fun hh => hk hh.symm
        simp [counterAdd, cntIn, hk, hts]
      · simp [counterAdd, cntIn, hk, hs, ih]

theorem cntIn_eq_zero (ctr : List (String × Nat)) (s : String)
    (h : s ∉ ctr.map Prod.fst) : cntIn ctr s = 0 := by
  induction ctr with
  | nil => rfl
  | cons kv rest ih =>
    obtain ⟨k, n⟩ := kv
    simp only [List.map_cons, List.mem_cons] at h
    push_neg at h
    show (if k = s then n else cntIn rest s) = 0
    rw [if_neg (fun hh => h.1 hh.symm), ih h.2]

theorem foldl_counterAdd_keys (stream : List String) :
    ∀ ctr : List (String × Nat),
      (stream.foldl counterAdd ctr).map Prod.fst =
        stream.foldl setAdd (ctr.map Prod.fst) := by
  induction stream with
  | nil => intro ctr; rfl
  | cons t ts ih =>
    intro ctr
    show (ts.foldl counterAdd (counterAdd ctr t)).map Prod.fst =
      ts.foldl setAdd (setAdd (ctr.map Prod.fst) t)
    rw [ih, keys_counterAdd]

theorem foldl_counterAdd_cnt (stream : List String) :
    ∀ (ctr : List (String × Nat)) (s : String),
      cntIn (stream.foldl counterAdd ctr) s = cntIn ctr s + occCount stream s := by
  induction stream with
  | nil =>
    intro ctr s
    show cntIn ctr s = cntIn ctr s + 0
    rw [Nat.add_zero]
  | cons t ts ih =>
    intro ctr s
    show cntIn (ts.foldl counterAdd (counterAdd ctr t)) s =
      cntIn ctr s + ((if t = s then 1 else 0) + occCount ts s)
    rw [ih, cntIn_counterAdd]
    omega

theorem mem_setAdd (l : List String) (s a : String) :
    a ∈ setAdd l s ↔ a ∈ l ∨ a = s := by
  unfold setAdd
  by_cases h : s ∈ l
  · rw [if_pos h]
    constructor
    · exact Or.inl
    · rintro (h1 | h1)
      · exact h1
      · rw [h1]; exact h
  · rw [if_neg h]
    simp [List.mem_append]

theorem nodup_setAdd (l : List String) (s : String) (h : l.Nodup) :
    (setAdd l s).Nodup := by
  unfold setAdd
  by_cases hm : s ∈ l
  · rw [if_pos hm]; exact h
  · rw [if_neg hm]
    simp [List.nodup_append, h, hm]

theorem mem_foldl_setAdd (stream : List String) :
    ∀ (acc : List String) (a : String),
      a ∈ stream.foldl setAdd acc ↔ a ∈ acc ∨ a ∈ stream := by
  induction stream with
  | nil => intro acc a; simp
  | cons t ts ih =>
    intro acc a
    show a ∈ ts.foldl setAdd (setAdd acc t) ↔ _
    rw [ih, mem_setAdd]
    simp only [List.mem_cons]
    tauto

theorem nodup_foldl_setAdd (stream : List String) :
    ∀ acc : List String, acc.Nodup → (stream.foldl setAdd acc).Nodup := by
  induction stream with
  | nil => intro acc h; exact h
  | cons t ts ih => intro acc h; exact ih _ (nodup_setAdd _ _ h)

theorem occCount_eq_zero (stream : List String) (s : String) (h : s ∉ stream) :
    occCount stream s = 0 := by
  induction stream with
  | nil => rfl
  | cons t ts ih =>
    simp only [List.mem_cons] at h
    push_neg at h
    show (if t = s then 1 else 0) + occCount ts s = 0
    rw [if_neg (fun hh => h.1 hh.symm), ih h.2]

theorem cntIn_map_pairs (l : List String) (f : String → Nat) (s : String) :
    cntIn (l.map fun t => (t, f t)) s = if s ∈ l then f s else 0 := by
  induction l with
  | nil => simp [cntIn]
  | cons a as ih =>
    show (if a = s then f a else cntIn (as.map fun t => (t, f t)) s) = _
    by_cases h : a = s
    · subst h
      rw [if_pos rfl, if_pos (List.mem_cons_self _ _)]
    · rw [if_neg h, ih]
      by_cases hm : s ∈ as
      · rw [if_pos hm, if_pos (List.mem_cons_of_mem _ hm)]
      · have hnc : s ∉ a :: as := by
          intro hmem
          rcases List.mem_cons.mp hmem with h1 | h2
          · exact h h1.symm
          · exact hm h2
        rw [if_neg hm, if_neg hnc]

theorem counter_ext : ∀ (c1 c2 : List (String × Nat)),
    c1.map Prod.fst = c2.map Prod.fst →
    (∀ s, cntIn c1 s = cntIn c2 s) →
    (c1.map Prod.fst).Nodup → c1 = c2 := by
  intro c1
  induction c1 with
  | nil =>
    intro c2 hk _ _
    cases c2 with
    | nil => rfl
    | cons kv t => exact absurd hk (by simp)
  | cons kv t1 ih =>
    intro c2 hk hc hnd
    obtain ⟨k, n⟩ := kv
    cases c2 with
    | nil => exact absurd hk (by simp)
    | cons kv2 t2 =>
      obtain ⟨k2, n2⟩ := kv2
      simp only [List.map_cons, List.cons.injEq] at hk
      obtain ⟨hk1, hk2⟩ := hk
      subst hk1
      simp only [List.map_cons, List.nodup_cons] at hnd
      have hn : n = n2 := by
        have hck := hc k
        simpa [cntIn] using hck
      subst hn
      have ht : t1 = t2 := by
        apply ih t2 hk2 ?_ hnd.2
        intro s
        by_cases hs : s = k
        · subst hs
          rw [cntIn_eq_zero t1 _ hnd.1, cntIn_eq_zero t2 _ (hk2 ▸ hnd.1)]
        · have hck := hc s
          have hks : ¬k = s := fun hh => hs hh.symm
          simpa [cntIn, hks] using hck
      rw [ht]

theorem counter_eq_spec (stream : List String) :
    stream.foldl counterAdd [] =
      (dedupFirst stream).map fun s => (s, occCount stream s) := by
  apply counter_ext
  · rw [foldl_counterAdd_keys, List.map_map]
    show stream.foldl setAdd [] =
      (dedupFirst stream).map (Prod.fst ∘ fun s => (s, occCount stream s))
    have hid : (Prod.fst ∘ fun s : String => (s, occCount stream s)) = id := rfl
    rw [hid, List.map_id, dedupFirst]
  · intro s
    rw [foldl_counterAdd_cnt, cntIn_map_pairs]
    show 0 + occCount stream s = _
    rw [Nat.zero_add]
    by_cases hm : s ∈ dedupFirst stream
    · rw [if_pos hm]
    · rw [if_neg hm]
      apply occCount_eq_zero
      intro hmem
      exact hm ((mem_foldl_setAdd stream [] s).mpr (Or.inr hmem))
  · rw [foldl_counterAdd_keys]
    show (stream.foldl setAdd []).Nodup
    exact nodup_foldl_setAdd _ _ List.nodup_nil

theorem foldl_suggStep (items : List Json) :
    ∀ ctr, items.foldl suggStep ctr = (suggStrings items).foldl counterAdd ctr := by
  induction items with
  | nil => intro ctr; rfl
  | cons j rest ih =>
    intro ctr
    show rest.foldl suggStep (suggStep ctr j) =
      (suggStrings (j :: rest)).foldl counterAdd ctr
    cases j with
    | str s =>
      by_cases hs : (!s.data.isEmpty) = true
      · have hd : ¬s.data = [] := by simpa using hs
        rw [show suggStep ctr (Json.str s) = counterAdd ctr (pyStrip s) from by
          simp [suggStep, hs]]
        rw [show suggStrings (Json.str s :: rest) = pyStrip s :: suggStrings rest from by
          simp [suggStrings, List.filterMap_cons, hd]]
        exact ih _
      · have hd : s.data = [] := by simpa using hs
        rw [show suggStep ctr (Json.str s) = ctr from by simp [suggStep, hs]]
        rw [show suggStrings (Json.str s :: rest) = suggStrings rest from by
          simp [suggStrings, List.filterMap_cons, hd]]
        exact ih _
    | null => exact ih _
    | bool b => exact ih _
    | int n => exact ih _
    | arr xs => exact ih _
    | obj kvs => exact ih _

theorem collectLoop_counter :
    ∀ (results : List TestResult) (ctr : List (String × Nat)) (w dw : List String)
      (ctr' : List (String × Nat)) (w' dw' : List String) (stream : List String),
      collectLoop results ctr w dw = .ok (ctr', w', dw') →
      suggestionStream results = .ok stream →
      ctr' = stream.foldl counterAdd ctr := by
  intro results
  induction results with
  | nil =>
    intro ctr w dw ctr' w' dw' stream hcol hstr
    simp only [collectLoop, Except.ok.injEq, Prod.mk.injEq] at hcol
    simp only [suggestionStream, Except.ok.injEq] at hstr
    obtain ⟨h1, _, _⟩ := hcol
    rw [← hstr, ← h1]
    rfl
  | cons r rest ih =>
    intro ctr w dw ctr' w' dw' stream hcol hstr
    simp only [collectLoop] at hcol
    simp only [suggestionStream] at hstr
    cases hpr : parse_reflection r.turn2_reflection with
    | error e =>
      rw [hpr] at hcol
      exact Except.noConfusion hcol
    | ok parsed =>
      simp only [hpr] at hcol hstr
      cases hit : pyIter parsed.improvement_suggestions with
      | error e =>
        rw [hit] at hcol
        exact Except.noConfusion hcol
      | ok sIt =>
        simp only [hit] at hcol hstr
        cases hw : pyIter parsed.what_worked with
        | error e =>
          rw [hw] at hcol
          exact Except.noConfusion hcol
        | ok wIt =>
          simp only [hw] at hcol
          cases hdw : pyIter parsed.what_didnt_work with
          | error e =>
            rw [hdw] at hcol
            exact Except.noConfusion hcol
          | ok dwIt =>
            simp only [hdw] at hcol
            cases hst : suggestionStream rest with
            | error e =>
              rw [hst] at hstr
              exact Except.noConfusion hstr
            | ok tail =>
              simp only [hst, Except.ok.injEq] at hstr
              have hrec := ih (sIt.foldl suggStep ctr) (wIt.foldl setStep w)
                (dwIt.foldl setStep dw) ctr' w' dw' tail hcol hst
              rw [hrec, foldl_suggStep, ← hstr, List.foldl_append]

/-- Claim C7 (amended): the ranked suggestion list consists of the distinct
trimmed strings among the string-typed suggestions that are non-empty
BEFORE trimming (so a whitespace-only suggestion contributes the empty
trimmed string), sorted by descending occurrence frequency with ties in
order of first appearance; in particular results with suggestion lists
["a","b"] and ["a"] yield the ranked list ["a","b"]. -/
theorem claim_c7_suggestions :
    (∀ (results : List TestResult) (out : SuggestOut) (stream : List String),
      collect_suggestions results = .ok out →
      suggestionStream results = .ok stream →
      out.improvement_suggestions = specRanked stream) ∧
    collect_suggestions
      [mkReflTR "r1" "\x7b\"improvement_suggestions\": [\"a\", \"b\"]\x7d",
       mkReflTR "r2" "\x7b\"improvement_suggestions\": [\"a\"]\x7d"] =
      .ok ⟨["a", "b"], [], [], [("a", 2), ("b", 1)]⟩ := by
  constructor
  · intro results out stream hc hs
    unfold collect_suggestions at hc
    cases hcl : collectLoop results [] [] [] with
    | error e =>
      rw [hcl] at hc
      exact Except.noConfusion hc
    | ok triple =>
      obtain ⟨ctr, w, dw⟩ := triple
      rw [hcl] at hc
      have hctr : ctr = stream.foldl counterAdd [] :=
        collectLoop_counter results [] [] [] ctr w dw stream hcl hs
      have hout : out = ⟨(sortCountDesc ctr).map Prod.fst, pySortStrings w,
          pySortStrings dw, ctr⟩ := by
        simpa [Except.ok.injEq] using hc.symm
      rw [hout]
      show (sortCountDesc ctr).map Prod.fst = specRanked stream
      rw [hctr, counter_eq_spec]
      rfl
  · rfl

/-- Claim C7 witness: the two-result example, fed through the theorem. -/
theorem claim_c7_witness :
    (SuggestOut.mk ["a", "b"] [] [] [("a", 2), ("b", 1)]).improvement_suggestions =
      specRanked ["a", "b", "a"] := by
  exact claim_c7_suggestions.1
    [mkReflTR "r1" "\x7b\"improvement_suggestions\": [\"a\", \"b\"]\x7d",
     mkReflTR "r2" "\x7b\"improvement_suggestions\": [\"a\"]\x7d"]
    ⟨["a", "b"], [], [], [("a", 2), ("b", 1)]⟩ ["a", "b", "a"] rfl rfl

/-- Claim C7 counterexample to "non-empty" as stated: a whitespace-only
suggestion string is truthy before trimming, so it is counted under its
trimmed (empty) form and the ranked output contains the empty string —
the claim's reading would instead produce the empty list. -/
theorem claim_c7_counterexample :
    collect_suggestions [mkReflTR "r1" "\x7b\"improvement_suggestions\": [\" \"]\x7d"] =
      .ok ⟨[""], [], [], [("", 1)]⟩ ∧
    ([""] : List String) ≠ [] := by
  exact ⟨rfl, by decide⟩

/-- Claim C8 witness: a timeout with a configured 300-second bound. -/
theorem claim_c8_witness :
    (run_claude_command (some 300) .timedOut).success = false ∧
    (run_claude_command (some 300) .timedOut).cost_usd = 0 ∧
    (run_claude_command (some 300) .timedOut).num_turns = 0 ∧
    (run_claude_command (some 300) .timedOut).error.isSome = true ∧
    (run_claude_command (some 300) .timedOut).error =
      some "Test timed out after 300 seconds" := by
  have h := claim_c8_invocation_faults (some 300) .timedOut (Or.inl rfl)
  exact ⟨h.1, h.2.1, h.2.2.1, h.2.2.2.1, h.2.2.2.2 300 rfl rfl⟩

end Harness
